import Mathlib

/-!
Verification of the `gana` session orchestrator against its specification.

The Rust sources are shallowly embedded: strings are modelled either as
Lean `String`s or as lists of Unicode scalar values (`List Nat`), external
commands are modelled by oracles describing their outcomes, and every
fallible operation is an explicit `Option`/`Except` value.  Character
classification functions from the Rust standard library
(`char::is_alphanumeric`, `char::to_lowercase`) are modelled exactly on
the Latin-1 range U+0000..U+00FF; code points beyond it lie outside the
modelled fragment, and every theorem that depends on these functions
quantifies only over inputs inside the fragment (or over ASCII, where the
two sanitization pipelines agree).
-/

namespace Gana

/-! ## Branch-name sanitization (src/session/git/util.rs) -/

/-- Models Rust `char::to_lowercase` on Unicode scalar values, exact on the
Latin-1 range U+0000..U+00FF: ASCII `A`..`Z` (65..90) and the Latin-1
uppercase letters `À`..`Ö` (0xC0..0xD6) and `Ø`..`Þ` (0xD8..0xDE) map 32
code points up; everything else in the range (including `×` 0xD7) is kept.
Code points above 0xFF are outside the modelled fragment and kept
unchanged. -/
def rustToLower (c : Nat) : Nat :=
  if 65 ≤ c ∧ c ≤ 90 then c + 32
  else if (0xC0 ≤ c ∧ c ≤ 0xD6) ∨ (0xD8 ≤ c ∧ c ≤ 0xDE) then c + 32
  else c

/-- Models Rust `char::is_alphanumeric` (Unicode `Alphabetic` or a numeric
category), exact on the Latin-1 range U+0000..U+00FF: ASCII digits and
letters; the Latin-1 letters `ª` (0xAA), `µ` (0xB5), `º` (0xBA),
`À`..`Ö` (0xC0..0xD6), `Ø`..`ö` (0xD8..0xF6), `ø`..`ÿ` (0xF8..0xFF); and
the numeric signs `²³¹¼½¾` (0xB2, 0xB3, 0xB9, 0xBC, 0xBD, 0xBE).  Code
points above 0xFF are outside the modelled fragment and treated as
non-alphanumeric. -/
def rustIsAlphanumeric (c : Nat) : Bool :=
  (48 ≤ c && c ≤ 57) || (65 ≤ c && c ≤ 90) || (97 ≤ c && c ≤ 122) ||
    c == 0xAA || c == 0xB5 || c == 0xBA ||
    c == 0xB2 || c == 0xB3 || c == 0xB9 || c == 0xBC || c == 0xBD || c == 0xBE ||
    (0xC0 ≤ c && c ≤ 0xD6) || (0xD8 ≤ c && c ≤ 0xF6) || (0xF8 ≤ c && c ≤ 0xFF)

/-- The character class kept by `sanitize_branch_name`:
alphanumerics and `/` (47), `_` (95), `.` (46), `-` (45). -/
def sanitizeKeepChar (c : Nat) : Bool :=
  rustIsAlphanumeric c || c == 47 || c == 95 || c == 46 || c == 45

/-- First pass of `sanitize_branch_name`: keep allowed characters,
map a space (32) to a hyphen (45), drop everything else. -/
def sanitizeFilterMap : List Nat → List Nat
  | [] => []
  | c :: cs =>
    if sanitizeKeepChar c then c :: sanitizeFilterMap cs
    else if c == 32 then 45 :: sanitizeFilterMap cs
    else sanitizeFilterMap cs

/-- Second pass of `sanitize_branch_name`: collapse runs of hyphens,
carrying the `prev_hyphen` flag of the Rust loop. -/
def collapseHyphens : List Nat → Bool → List Nat
  | [], _ => []
  | c :: cs, prev =>
    if c == 45 then
      if prev then collapseHyphens cs true else 45 :: collapseHyphens cs true
    else c :: collapseHyphens cs false

/-- The characters trimmed from both ends: hyphen (45) and slash (47). -/
def isTrimChar (c : Nat) : Bool := c == 45 || c == 47

/-- Models Rust `str::trim_matches` for the hyphen/slash class. -/
def trimMatches (cs : List Nat) : List Nat :=
  ((cs.dropWhile isTrimChar).reverse.dropWhile isTrimChar).reverse

/-- `sanitize_branch_name` on scalar values, translated from
`src/session/git/util.rs`. -/
def sanitizeCodes (cs : List Nat) : List Nat :=
  if cs = [] then []
  else trimMatches (collapseHyphens (sanitizeFilterMap (cs.map rustToLower)) false)

/-- Unicode scalar values of a string. -/
def strCodes (s : String) : List Nat := s.data.map Char.toNat

/-- String built from a list of scalar values. -/
def codesStr (cs : List Nat) : String := ⟨cs.map Char.ofNat⟩

/-- `sanitize_branch_name` (src/session/git/util.rs). -/
def sanitize_branch_name (s : String) : String :=
  codesStr (sanitizeCodes (strCodes s))

/-- The character class of the specification text: `[a-z0-9/_.-]`. -/
def specKeepChar (c : Nat) : Bool :=
  (97 ≤ c && c ≤ 122) || (48 ≤ c && c ≤ 57) || c == 47 || c == 95 || c == 46 || c == 45

/-- The sanitization pipeline exactly as the specification words it:
lowercase; spaces to hyphens; drop characters outside `[a-z0-9/_.-]`;
collapse hyphen runs; trim leading/trailing hyphens and slashes. -/
def sanitizeSpecCodes (cs : List Nat) : List Nat :=
  trimMatches
    (collapseHyphens
      (((cs.map rustToLower).map fun c => if c == 32 then 45 else c).filter specKeepChar)
      false)

/-- The specification pipeline on strings. -/
def sanitizeSpec (s : String) : String :=
  codesStr (sanitizeSpecCodes (strCodes s))

theorem rustToLower_ascii (c : Nat) (h : c < 128) :
    rustToLower c < 128 ∧ ¬ (65 ≤ rustToLower c ∧ rustToLower c ≤ 90) := by
  unfold rustToLower
  split
  · omega
  · split <;> omega

theorem sanitizeKeepChar_iff (c : Nat) (h : c < 128) :
    sanitizeKeepChar c = true ↔
      (48 ≤ c ∧ c ≤ 57) ∨ (65 ≤ c ∧ c ≤ 90) ∨ (97 ≤ c ∧ c ≤ 122) ∨
        c = 47 ∨ c = 95 ∨ c = 46 ∨ c = 45 := by
  unfold sanitizeKeepChar rustIsAlphanumeric
  simp only [Bool.or_eq_true, decide_eq_true_eq, beq_iff_eq, Bool.and_eq_true]
  omega

theorem specKeepChar_iff (c : Nat) :
    specKeepChar c = true ↔
      (97 ≤ c ∧ c ≤ 122) ∨ (48 ≤ c ∧ c ≤ 57) ∨
        c = 47 ∨ c = 95 ∨ c = 46 ∨ c = 45 := by
  unfold specKeepChar
  simp only [Bool.or_eq_true, decide_eq_true_eq, beq_iff_eq, Bool.and_eq_true]
  omega

theorem sanitizeFilterMap_eq_spec (cs : List Nat) (hascii : ∀ c ∈ cs, c < 128) :
    sanitizeFilterMap (cs.map rustToLower) =
      ((cs.map rustToLower).map fun c => if c == 32 then 45 else c).filter specKeepChar := by
  induction cs with
  | nil => rfl
  | cons c cs ih0 =>
    have hc : c < 128 := hascii c (List.mem_cons_self c cs)
    have ih := ih0 fun x hx => hascii x (List.mem_cons_of_mem c hx)
    obtain ⟨hlt, hnu⟩ := rustToLower_ascii c hc
    have hki := sanitizeKeepChar_iff (rustToLower c) hlt
    have hsi := specKeepChar_iff (rustToLower c)
    simp only [List.map_cons, List.filter_cons]
    rw [sanitizeFilterMap]
    by_cases hk : sanitizeKeepChar (rustToLower c) = true
    · have hs : specKeepChar (rustToLower c) = true := by
        rw [hsi]; rw [hki] at hk; omega
      have hne : ¬ rustToLower c = 32 := by
        rw [hki] at hk; omega
      simp [hk, hne, hs, ih]
    · by_cases h32 : rustToLower c = 32
      · have hs45 : specKeepChar 45 = true := by decide
        have hk32 : ¬ sanitizeKeepChar 32 = true := by decide
        simp [h32, hk32, hs45, ih]
      · have hs : ¬ specKeepChar (rustToLower c) = true := by
          rw [hsi]; rw [hki] at hk; omega
        have h32b : (rustToLower c == 32) = false := by
          simp [h32]
        simp [hk, h32b, hs, ih]

theorem sanitizeCodes_eq_spec (cs : List Nat) (hascii : ∀ c ∈ cs, c < 128) :
    sanitizeCodes cs = sanitizeSpecCodes cs := by
  unfold sanitizeCodes sanitizeSpecCodes
  split
  · subst cs; rfl
  · rw [sanitizeFilterMap_eq_spec cs hascii]

/-- C3 counterexample: the claimed pipeline drops every character outside
`[a-z0-9/_.-]`, but on the non-ASCII title `Ä` the code Unicode-lowercases
to `ä` and keeps it (`char::is_alphanumeric` accepts it), while the claimed
pipeline yields the empty string. -/
theorem sanitize_branch_name_unicode_counterexample :
    sanitize_branch_name "Ä" = "ä" ∧ sanitizeSpec "Ä" = "" ∧
      sanitize_branch_name "Ä" ≠ sanitizeSpec "Ä" := by
  decide

/-- C3 (amended): for every ASCII input (all scalar values below 128),
`sanitize_branch_name` is exactly the pipeline of the specification
(lowercase; spaces to hyphens; drop characters outside `[a-z0-9/_.-]`;
collapse hyphen runs; trim leading/trailing hyphens and slashes); the
empty string maps to itself; and the concrete example of the specification
evaluates as claimed.  On non-ASCII input the code instead keeps Unicode
alphanumerics after Unicode lowercasing, refuting the unrestricted claim
(see the counterexample). -/
theorem sanitize_branch_name_spec (s : String)
    (hascii : ∀ c ∈ strCodes s, c < 128) :
    sanitize_branch_name s = sanitizeSpec s ∧
      sanitize_branch_name "" = "" ∧
      sanitize_branch_name "USER/Feature Branch!@#$%^&*()/v1.0" =
        "user/feature-branch/v1.0" := by
  refine ⟨?_, by decide, by decide⟩
  unfold sanitize_branch_name sanitizeSpec
  rw [sanitizeCodes_eq_spec _ hascii]

/-- C3 witness: the amended pipeline equality at the specification's own
concrete example, which is ASCII. -/
theorem sanitize_branch_name_spec_witness :
    sanitize_branch_name "USER/Feature Branch!@#$%^&*()/v1.0" =
        sanitizeSpec "USER/Feature Branch!@#$%^&*()/v1.0" ∧
      sanitize_branch_name "" = "" ∧
      sanitize_branch_name "USER/Feature Branch!@#$%^&*()/v1.0" =
        "user/feature-branch/v1.0" :=
  sanitize_branch_name_spec "USER/Feature Branch!@#$%^&*()/v1.0" (by decide)

/-! ## Diff statistics (src/session/git/diff.rs) -/

/-- Split a character list at every newline; the result always has one more
element than the number of newlines. -/
def splitNl : List Char → List (List Char)
  | [] => [[]]
  | c :: cs =>
    if c = '\n' then [] :: splitNl cs
    else
      match splitNl cs with
      | l :: ls => (c :: l) :: ls
      | [] => [[c]]

/-- Drop a final empty line, as Rust `str::lines` does for a trailing
newline (and for the empty string). -/
def dropTrailingEmpty : List (List Char) → List (List Char)
  | [] => []
  | [l] => if l = [] then [] else [l]
  | l :: l2 :: rest => l :: dropTrailingEmpty (l2 :: rest)

/-- Strip one trailing carriage return from a line, as Rust `str::lines`. -/
def stripCr (l : List Char) : List Char :=
  if l.getLast? = some '\r' then l.dropLast else l

/-- Models Rust `str::lines`. -/
def rustLines (s : String) : List (List Char) :=
  (dropTrailingEmpty (splitNl s.data)).map stripCr

/-- Line starts with `+`. -/
def startsPlus : List Char → Bool
  | '+' :: _ => true
  | _ => false

/-- Line starts with `+++`. -/
def startsPlus3 : List Char → Bool
  | '+' :: '+' :: '+' :: _ => true
  | _ => false

/-- Line starts with `-`. -/
def startsMinus : List Char → Bool
  | '-' :: _ => true
  | _ => false

/-- Line starts with `---`. -/
def startsMinus3 : List Char → Bool
  | '-' :: '-' :: '-' :: _ => true
  | _ => false

/-- Diff statistics record (src/session/git/diff.rs). -/
structure DiffStats where
  content : String
  added_lines : Nat
  removed_lines : Nat
  error : Option String
deriving DecidableEq, Repr

/-- Counting loop of `DiffStats::from_diff`: the accumulator holds the
`added`/`removed` counters of the Rust loop. -/
def fromDiffLoop (ls : List (List Char)) (acc : Nat × Nat) : Nat × Nat :=
  match ls with
  | [] => acc
  | line :: rest =>
    if startsPlus line && !startsPlus3 line then fromDiffLoop rest (acc.1 + 1, acc.2)
    else if startsMinus line && !startsMinus3 line then fromDiffLoop rest (acc.1, acc.2 + 1)
    else fromDiffLoop rest acc

/-- `DiffStats::from_diff` (src/session/git/diff.rs). -/
def DiffStats.from_diff (content : String) : DiffStats :=
  let counts := fromDiffLoop (rustLines content) (0, 0)
  { content := content, added_lines := counts.1, removed_lines := counts.2, error := none }

theorem fromDiffLoop_eq (ls : List (List Char)) (a b : Nat) :
    fromDiffLoop ls (a, b) =
      (a + ls.countP (fun l => startsPlus l && !startsPlus3 l),
        b + ls.countP (fun l => startsMinus l && !startsMinus3 l)) := by
  induction ls generalizing a b with
  | nil => simp [fromDiffLoop]
  | cons line rest ih =>
    rw [fromDiffLoop]
    by_cases hp : (startsPlus line && !startsPlus3 line) = true
    · have hm : (startsMinus line && !startsMinus3 line) = false := by
        cases line with
        | nil => rfl
        | cons c cs =>
          have : c = '+' := by
            by_contra hne
            simp [startsPlus, hne] at hp
          subst this
          rfl
      simp [hp, hm, ih, List.countP_cons]
      omega
    · by_cases hm : (startsMinus line && !startsMinus3 line) = true
      · simp [hp, hm, ih, List.countP_cons]
        omega
      · simp [hp, hm, ih, List.countP_cons]

/-- C4: for every input string, `DiffStats::from_diff` returns the input as
`content`, counts as `added_lines` exactly the lines starting with `+` but
not `+++`, counts as `removed_lines` exactly the lines starting with `-`
but not `---`, and reports no error. -/
theorem DiffStats_from_diff_spec (s : String) :
    (DiffStats.from_diff s).content = s ∧
      (DiffStats.from_diff s).added_lines =
        (rustLines s).countP (fun l => startsPlus l && !startsPlus3 l) ∧
      (DiffStats.from_diff s).removed_lines =
        (rustLines s).countP (fun l => startsMinus l && !startsMinus3 l) ∧
      (DiffStats.from_diff s).error = none := by
  unfold DiffStats.from_diff
  rw [fromDiffLoop_eq]
  simp

/-! ## Tmux session names and session state (src/session/tmux/mod.rs) -/

/-- One character of tmux `sanitize_name`: alphanumerics and `-` (45) are
kept, everything else becomes `_` (95). -/
def tmuxMapChar (c : Nat) : Nat :=
  if rustIsAlphanumeric c || c == 45 then c else 95

/-- Collapse consecutive underscores, carrying the `prev_underscore` flag. -/
def collapseUnderscores : List Nat → Bool → List Nat
  | [], _ => []
  | c :: cs, prev =>
    if c == 95 then
      if prev then collapseUnderscores cs true else 95 :: collapseUnderscores cs true
    else c :: collapseUnderscores cs false

/-- Models Rust `str::trim_end_matches` for underscores. -/
def trimEndUnderscores (cs : List Nat) : List Nat :=
  (cs.reverse.dropWhile (fun c => c == 95)).reverse

/-- tmux `sanitize_name` (src/session/tmux/mod.rs): replace characters,
collapse underscores, trim trailing underscores, add the fixed namespace. -/
def sanitize_name (s : String) : String :=
  "league_" ++ codesStr (trimEndUnderscores
    (collapseUnderscores ((strCodes s).map tmuxMapChar) false))

/-- Boolean list-prefix test. -/
def isPrefixOfCh : List Char → List Char → Bool
  | [], _ => true
  | _ :: _, [] => false
  | a :: as, b :: bs => a == b && isPrefixOfCh as bs

/-- Boolean list-infix test. -/
def isInfixOfCh (pat : List Char) : List Char → Bool
  | [] => isPrefixOfCh pat []
  | c :: rest => isPrefixOfCh pat (c :: rest) || isInfixOfCh pat rest

/-- Substring containment, modelling Rust `str::contains`. -/
def containsSub (h pat : String) : Bool := isInfixOfCh pat.data h.data

/-- `TmuxSession::has_ai_prompt` (src/session/tmux/mod.rs). -/
def hasAiPrompt (content program : String) : Bool :=
  if program = "claude" then containsSub content "No, and tell Claude what to do differently"
  else if program = "aider" then containsSub content "(Y)es/(N)o/(D)on\x27t ask again"
  else if program = "gemini" then containsSub content "Yes, allow once"
  else if program = "amp" then containsSub content "Allow" && containsSub content "Deny"
  else false

/-- State of a `TmuxSession`.  The PTY master handle is modelled by its
presence (`ptmx`); the SHA-256 status hash is modelled by the hashed
content itself (`none` for the initial empty hash, injective stand-in
for the digest). -/
structure TmuxSessionM where
  session_name : String
  sanitized_name : String
  ptmx : Bool
  status_hash : Option String
  program : String
  attached : Bool
  height : Nat
  width : Nat
deriving DecidableEq, Repr

/-- `TmuxSession::new` (src/session/tmux/mod.rs). -/
def TmuxSession.newM (name program : String) : TmuxSessionM :=
  { session_name := name, sanitized_name := sanitize_name name, ptmx := false,
    status_hash := none, program := program, attached := false, height := 0, width := 0 }

/-- Oracle for the outcomes of external tmux commands and PTY opens. -/
structure TmuxEnv where
  hasSession : String → Bool
  capture : String → Bool → Option String
  ptyOk : Bool

/-- `TmuxSession::capture_pane_content`: result of
`tmux capture-pane -p -e -J [-S -]` against the sanitized name. -/
def TmuxSession.capturePane (t : TmuxSessionM) (env : TmuxEnv) (full : Bool) : Option String :=
  env.capture t.sanitized_name full

/-- `TmuxSession::has_updated`: capture the visible pane, compare with the
stored hash, store the new hash, and also report assistant prompts.
`none` models the `Err` of a failed capture. -/
def TmuxSession.hasUpdatedM (t : TmuxSessionM) (env : TmuxEnv) :
    Option (Bool × TmuxSessionM) :=
  match env.capture t.sanitized_name false with
  | none => none
  | some content =>
    let changed : Bool := decide (t.status_hash ≠ some content)
    let t2 := if changed then { t with status_hash := some content } else t
    some (changed || hasAiPrompt content t.program, t2)

/-- An external command invocation: program name and argument vector. -/
abbrev CmdCall := String × List String

/-! ## Instances (src/session/instance.rs) -/

/-- `InstanceStatus` (src/session/instance.rs). -/
inductive InstanceStatus where
  | Ready
  | Running
  | Loading
  | Paused
deriving DecidableEq, Repr

/-- `GitWorktree` (src/session/git/worktree.rs). -/
structure GitWorktree where
  repo_path : String
  worktree_dir : String
  session_id : String
  branch : String
  base_commit : String
deriving DecidableEq, Repr

/-- `Instance` (src/session/instance.rs).  Timestamps are modelled as
naturals; the three serde-skipped runtime fields are the trailing options. -/
structure Instance where
  title : String
  path : String
  branch : String
  status : InstanceStatus
  program : String
  auto_yes : Bool
  height : Nat
  width : Nat
  created_at : Nat
  updated_at : Nat
  started : Bool
  tmux_session : Option TmuxSessionM
  git_worktree : Option GitWorktree
  diff_stats : Option DiffStats
deriving DecidableEq, Repr

/-- `InstanceOptions` (src/session/instance.rs). -/
structure InstanceOptions where
  title : String
  path : String
  program : String
  auto_yes : Bool

/-- `Instance::new`; `now` is the wall-clock reading of `Utc::now()`. -/
def Instance.new (opts : InstanceOptions) (now : Nat) : Instance :=
  { title := opts.title, path := opts.path, branch := "", status := .Ready,
    program := opts.program, auto_yes := opts.auto_yes, height := 0, width := 0,
    created_at := now, updated_at := now, started := false,
    tmux_session := none, git_worktree := none, diff_stats := none }

/-- `Instance::preview`: capture of the visible pane, `None` without a
multiplexer handle or on capture failure. -/
def Instance.previewM (i : Instance) (env : TmuxEnv) : Option String :=
  i.tmux_session.bind fun t => TmuxSession.capturePane t env false

/-- `Instance::preview_full_history`. -/
def Instance.previewFullHistoryM (i : Instance) (env : TmuxEnv) : Option String :=
  i.tmux_session.bind fun t => TmuxSession.capturePane t env true

/-- `Instance::has_updated`: false without a handle or on error, otherwise
the session result; the mutated session is threaded back. -/
def Instance.hasUpdatedM (i : Instance) (env : TmuxEnv) : Bool × Instance :=
  match i.tmux_session with
  | none => (false, i)
  | some t =>
    match TmuxSession.hasUpdatedM t env with
    | none => (false, i)
    | some (b, t2) => (b, { i with tmux_session := some t2 })

/-- `Instance::send_keys`: the tmux commands issued (none without a handle). -/
def Instance.sendKeysM (i : Instance) (keys : String) : List CmdCall :=
  match i.tmux_session with
  | none => []
  | some t => [("tmux", ["send-keys", "-t", t.sanitized_name, keys])]

/-- `Instance::send_prompt`: `send_keys(prompt)` then `send_keys("Enter")`. -/
def Instance.sendPromptM (i : Instance) (prompt : String) : List CmdCall :=
  match i.tmux_session with
  | none => []
  | some t =>
    [("tmux", ["send-keys", "-t", t.sanitized_name, prompt]),
      ("tmux", ["send-keys", "-t", t.sanitized_name, "Enter"])]

/-! ## Instance storage (src/session/storage.rs) -/

/-- The serialized form of an `Instance`: exactly the non-skipped fields. -/
structure PersistedInstance where
  title : String
  path : String
  branch : String
  status : InstanceStatus
  program : String
  auto_yes : Bool
  height : Nat
  width : Nat
  created_at : Nat
  updated_at : Nat
  started : Bool
deriving DecidableEq, Repr

/-- Serialization of an `Instance` (serde, with the three skip fields). -/
def Instance.persist (i : Instance) : PersistedInstance :=
  { title := i.title, path := i.path, branch := i.branch, status := i.status,
    program := i.program, auto_yes := i.auto_yes, height := i.height,
    width := i.width, created_at := i.created_at, updated_at := i.updated_at,
    started := i.started }

/-- Deserialization: skipped fields come back as their defaults (`None`). -/
def Instance.ofPersisted (p : PersistedInstance) : Instance :=
  { title := p.title, path := p.path, branch := p.branch, status := p.status,
    program := p.program, auto_yes := p.auto_yes, height := p.height,
    width := p.width, created_at := p.created_at, updated_at := p.updated_at,
    started := p.started, tmux_session := none, git_worktree := none,
    diff_stats := none }

/-- An instance with its runtime-only fields cleared. -/
def Instance.dropRuntime (i : Instance) : Instance :=
  { i with tmux_session := none, git_worktree := none, diff_stats := none }

/-- `FileStorage::save_instances`: write the started instances, serialized,
replacing any previous file content. -/
def FileStorage.save_instances (l : List Instance) :
    Option (List PersistedInstance) :=
  some ((l.filter (·.started)).map Instance.persist)

/-- `FileStorage::load_instances`: an absent file (`none`) loads as the
empty list, otherwise the parsed array. -/
def FileStorage.load_instances (store : Option (List PersistedInstance)) :
    List Instance :=
  (store.getD []).map Instance.ofPersisted

theorem ofPersisted_persist (i : Instance) :
    Instance.ofPersisted (Instance.persist i) = Instance.dropRuntime i := rfl

/-- C2 counterexample: saving and loading a started instance that holds a
worktree handle does not return that element itself — the runtime handle
is dropped by serialization, so the loaded list differs from the filtered
input list. -/
theorem storage_roundtrip_counterexample :
    FileStorage.load_instances (FileStorage.save_instances
        [{ Instance.new ⟨"t", "/tmp", "claude", false⟩ 0 with
            started := true,
            git_worktree := some ⟨"/repo", "/wt", "t", "league/t", "abc"⟩ }]) ≠
      [{ Instance.new ⟨"t", "/tmp", "claude", false⟩ 0 with
          started := true,
          git_worktree := some ⟨"/repo", "/wt", "t", "league/t", "abc"⟩ }] := by
  decide

/-- C2 (amended): `load` after `save` returns exactly the started elements
of the list, in order, each with all persisted fields intact and the
runtime-only fields (`tmux_session`, `git_worktree`, `diff_stats`) reset to
`None`; loading an absent file yields the empty list. -/
theorem storage_roundtrip (l : List Instance) :
    FileStorage.load_instances (FileStorage.save_instances l) =
        (l.filter (·.started)).map Instance.dropRuntime ∧
      FileStorage.load_instances none = [] := by
  constructor
  · unfold FileStorage.load_instances FileStorage.save_instances
    simp only [Option.getD_some]
    rw [List.map_map]
    exact List.map_congr_left fun i _ => ofPersisted_persist i
  · rfl

/-! ## Daemon loop body (src/daemon/mod.rs) -/

/-- One instance of the daemon poll body: when the instance is `Running`
with `auto_yes` set, evaluate `has_updated` (mutating the stored hash) and,
when it reports a change, send `"y\n"`; the short-circuit of `&&` means
`has_updated` is not evaluated otherwise. -/
def daemonStepOne (env : TmuxEnv) (i : Instance) : Instance × List CmdCall :=
  if i.status = .Running ∧ i.auto_yes = true then
    let r := Instance.hasUpdatedM i env
    if r.1 then (r.2, Instance.sendKeysM r.2 "y\n") else (r.2, [])
  else (i, [])

/-- The daemon poll iteration over the loaded instance list, collecting the
tmux commands issued. -/
def daemonPollInstances (env : TmuxEnv) : List Instance → List Instance × List CmdCall
  | [] => ([], [])
  | i :: rest =>
    let r := daemonStepOne env i
    let rr := daemonPollInstances env rest
    (r.1 :: rr.1, r.2 ++ rr.2)

theorem hasUpdatedM_keeps_name (i : Instance) (env : TmuxEnv) (t : TmuxSessionM)
    (ht : i.tmux_session = some t) :
    ∃ t2, (Instance.hasUpdatedM i env).2.tmux_session = some t2 ∧
      t2.sanitized_name = t.sanitized_name := by
  cases hc : env.capture t.sanitized_name false with
  | none =>
    exact ⟨t, by simp [Instance.hasUpdatedM, TmuxSession.hasUpdatedM, ht, hc], rfl⟩
  | some content =>
    by_cases hch : t.status_hash = some content
    · exact ⟨t, by simp [Instance.hasUpdatedM, TmuxSession.hasUpdatedM, ht, hc, hch], rfl⟩
    · exact ⟨{ t with status_hash := some content },
        by simp [Instance.hasUpdatedM, TmuxSession.hasUpdatedM, ht, hc, hch], rfl⟩

/-- C5: in a daemon poll iteration, every loaded instance that is `Running`
with `auto_yes` set and whose `has_updated()` reports true is sent the
literal `"y\n"` over its multiplexer session. -/
theorem daemon_sends_y (env : TmuxEnv) (l : List Instance) (k : Nat)
    (inst : Instance) (t : TmuxSessionM)
    (hget : l.get? k = some inst) (ht : inst.tmux_session = some t)
    (hs : inst.status = .Running) (ha : inst.auto_yes = true)
    (hu : (Instance.hasUpdatedM inst env).1 = true) :
    ("tmux", ["send-keys", "-t", t.sanitized_name, "y\n"]) ∈
      (daemonPollInstances env l).2 := by
  induction l generalizing k with
  | nil => simp at hget
  | cons hd rest ih =>
    cases k with
    | zero =>
      simp only [List.get?] at hget
      cases hget
      obtain ⟨t2, ht2, hname⟩ := hasUpdatedM_keeps_name inst env t ht
      rw [daemonPollInstances]
      simp only [daemonStepOne, hs, ha, and_self, if_true, hu, if_pos trivial]
      simp only [Instance.sendKeysM, ht2, hname]
      simp [hs, ha, hu, Instance.sendKeysM, ht2, hname]
    | succ k =>
      simp only [List.get?] at hget
      rw [daemonPollInstances]
      exact List.mem_append_right _ (ih k hget)

/-- C5 witness: a concrete running auto-yes instance whose pane content has
changed is sent `"y\n"`. -/
theorem daemon_sends_y_witness :
    ("tmux", ["send-keys", "-t", (TmuxSession.newM "w" "claude").sanitized_name, "y\n"]) ∈
      (daemonPollInstances
        ⟨fun _ => true, fun _ _ => some "hello", true⟩
        [{ Instance.new ⟨"w", "/tmp", "claude", true⟩ 0 with
            status := .Running, started := true,
            tmux_session := some (TmuxSession.newM "w" "claude") }]).2 :=
  daemon_sends_y _ _ 0 _ _ rfl rfl rfl rfl (by decide)

/-- C10: on an instance without a multiplexer handle, `preview`,
`preview_full_history` return `None`, `has_updated` returns false leaving
the instance unchanged, and `send_prompt`/`send_keys` issue no external
command and change nothing — all total, none can fail. -/
theorem instance_without_tmux_inert (i : Instance) (env : TmuxEnv)
    (p k : String) (h : i.tmux_session = none) :
    Instance.previewM i env = none ∧
      Instance.previewFullHistoryM i env = none ∧
      Instance.hasUpdatedM i env = (false, i) ∧
      Instance.sendPromptM i p = [] ∧
      Instance.sendKeysM i k = [] := by
  unfold Instance.previewM Instance.previewFullHistoryM Instance.hasUpdatedM
    Instance.sendPromptM Instance.sendKeysM
  rw [h]
  simp

/-- C10 witness: the inertness facts at a concrete fresh instance. -/
theorem instance_without_tmux_inert_witness :
    Instance.previewM (Instance.new ⟨"t", "/tmp", "claude", false⟩ 0)
        ⟨fun _ => true, fun _ _ => some "x", true⟩ = none ∧
      Instance.previewFullHistoryM (Instance.new ⟨"t", "/tmp", "claude", false⟩ 0)
        ⟨fun _ => true, fun _ _ => some "x", true⟩ = none ∧
      Instance.hasUpdatedM (Instance.new ⟨"t", "/tmp", "claude", false⟩ 0)
        ⟨fun _ => true, fun _ _ => some "x", true⟩ =
        (false, Instance.new ⟨"t", "/tmp", "claude", false⟩ 0) ∧
      Instance.sendPromptM (Instance.new ⟨"t", "/tmp", "claude", false⟩ 0) "hi" = [] ∧
      Instance.sendKeysM (Instance.new ⟨"t", "/tmp", "claude", false⟩ 0) "y" = [] :=
  instance_without_tmux_inert _ _ "hi" "y" rfl

/-! ## Session restore (src/session/tmux/mod.rs, src/app/mod.rs) -/

/-- `TmuxError` (src/session/tmux/mod.rs). -/
inductive TmuxError where
  | CommandFailed (msg : String)
  | PtyError (msg : String)
  | SessionNotFound (name : String)
  | Cmd (msg : String)
deriving DecidableEq, Repr

/-- Result of a tmux session operation together with the external commands
it ran and the number of PTYs it opened. -/
structure TmuxOps where
  result : Except TmuxError TmuxSessionM
  cmds : List CmdCall
  ptyOpens : Nat

/-- `TmuxSession::restore`: verify the session with `has-session` — failing
with `SessionNotFound` and opening nothing when it is absent — then open a
fresh monitoring PTY by attaching. -/
def TmuxSession.restoreM (t : TmuxSessionM) (env : TmuxEnv) : TmuxOps :=
  let hasCall : CmdCall := ("tmux", ["has-session", "-t", t.sanitized_name])
  if env.hasSession t.sanitized_name then
    if env.ptyOk then
      { result := .ok { t with ptmx := true, attached := true },
        cmds := [hasCall], ptyOpens := 1 }
    else
      { result := .error (.PtyError "pty start failed"),
        cmds := [hasCall], ptyOpens := 1 }
  else
    { result := .error (.SessionNotFound t.sanitized_name),
      cmds := [hasCall], ptyOpens := 0 }

/-- Modelled from the spec: `Instance::restore_session` (called from
`App::restore_loaded_instances` and the `InstanceReady` handler but absent
from src/) re-attaches to an existing multiplexer session per §4.5
("if restoring, only re-restore() the multiplexer session"), mirroring the
in-tree restore path of `Instance::start(false, ..)`. -/
def Instance.restoreSessionM (i : Instance) (env : TmuxEnv) : Except TmuxError Instance :=
  let t := TmuxSession.newM i.title i.program
  match (TmuxSession.restoreM t env).result with
  | .error e => .error e
  | .ok t2 => .ok { i with tmux_session := some t2, status := .Running }

/-- `App::restore_loaded_instances`: every loaded instance persisted as
`Running` whose restore fails is downgraded to `Ready` with
`started = false`. -/
def App.restoreLoadedInstances (env : TmuxEnv) (l : List Instance) : List Instance :=
  l.map fun i =>
    if i.status = .Running then
      match Instance.restoreSessionM i env with
      | .error _ => { i with status := .Ready, started := false }
      | .ok i2 => i2
    else i

/-- C7: when `has-session` fails, `restore()` fails with `SessionNotFound`
and opens no PTY; and a persisted `Running` instance whose session is gone
ends controller startup as `Ready` with `started = false`. -/
theorem restore_missing_session (env : TmuxEnv) (t : TmuxSessionM) (i : Instance)
    (hs : env.hasSession t.sanitized_name = false)
    (hrun : i.status = .Running)
    (hmiss : env.hasSession (sanitize_name i.title) = false) :
    (TmuxSession.restoreM t env).result = .error (.SessionNotFound t.sanitized_name) ∧
      (TmuxSession.restoreM t env).ptyOpens = 0 ∧
      App.restoreLoadedInstances env [i] =
        [{ i with status := .Ready, started := false }] := by
  refine ⟨?_, ?_, ?_⟩
  · simp [TmuxSession.restoreM, hs]
  · simp [TmuxSession.restoreM, hs]
  · simp [App.restoreLoadedInstances, hrun, Instance.restoreSessionM,
      TmuxSession.restoreM, TmuxSession.newM, hmiss]

/-- C7 witness: the restore failure facts at a concrete session and a
concrete persisted running instance, with no live tmux server. -/
theorem restore_missing_session_witness :
    (TmuxSession.restoreM (TmuxSession.newM "a" "claude")
        ⟨fun _ => false, fun _ _ => none, true⟩).result =
      .error (.SessionNotFound (TmuxSession.newM "a" "claude").sanitized_name) ∧
      (TmuxSession.restoreM (TmuxSession.newM "a" "claude")
        ⟨fun _ => false, fun _ _ => none, true⟩).ptyOpens = 0 ∧
      App.restoreLoadedInstances ⟨fun _ => false, fun _ _ => none, true⟩
        [{ Instance.new ⟨"a", "/tmp", "claude", false⟩ 0 with
            status := .Running, started := true, branch := "league/a" }] =
        [{ { Instance.new ⟨"a", "/tmp", "claude", false⟩ 0 with
              status := .Running, started := true, branch := "league/a" } with
            status := .Ready, started := false }] :=
  restore_missing_session _ _ _ rfl rfl rfl

/-! ## Worktree commits (src/session/git/worktree_git.rs) -/

/-- Oracle for the command executor: success of `run` and output of
`output` per invocation. -/
structure CmdEnv where
  run : String → List String → Bool
  output : String → List String → Option String

/-- Models Rust `char::is_whitespace` on the ASCII range. -/
def rustIsWhitespace (c : Char) : Bool :=
  c == ' ' || c == '\t' || c == '\n' || c == '\r' ||
    c.toNat == 11 || c.toNat == 12

/-- Models Rust `str::trim`. -/
def rustTrim (s : String) : String :=
  ⟨((s.data.dropWhile rustIsWhitespace).reverse.dropWhile rustIsWhitespace).reverse⟩

/-- `GitWorktree::run_git_command`: `git -C path args`, trimmed output,
together with the call made. -/
def runGitCommand (env : CmdEnv) (path : String) (gitArgs : List String) :
    Option String × List CmdCall :=
  ((env.output "git" (["-C", path] ++ gitArgs)).map rustTrim,
    [("git", ["-C", path] ++ gitArgs)])

/-- `GitWorktree::is_dirty`: `git status --porcelain` output non-empty. -/
def GitWorktree.is_dirty (wt : GitWorktree) (env : CmdEnv) :
    Option Bool × List CmdCall :=
  let r := runGitCommand env wt.worktree_dir ["status", "--porcelain"]
  (r.1.map fun s => !(s == ""), r.2)

/-- `GitWorktree::commit_changes`: return success doing nothing further when
the worktree is clean, otherwise `git add .` then
`git commit --no-verify -m title`; the issued commands are collected. -/
def GitWorktree.commit_changes (wt : GitWorktree) (title : String) (env : CmdEnv) :
    Except String Unit × List CmdCall :=
  match GitWorktree.is_dirty wt env with
  | (none, tr) => (.error "status failed", tr)
  | (some false, tr) => (.ok (), tr)
  | (some true, tr) =>
    let addArgs := ["-C", wt.worktree_dir, "add", "."]
    if env.run "git" addArgs then
      let commitArgs := ["-C", wt.worktree_dir, "commit", "--no-verify", "-m", title]
      if env.run "git" commitArgs then
        (.ok (), tr ++ [("git", addArgs), ("git", commitArgs)])
      else
        (.error "commit failed", tr ++ [("git", addArgs), ("git", commitArgs)])
    else (.error "add failed", tr ++ [("git", addArgs)])

/-- C8: when `is_dirty` reports a clean worktree, `commit_changes` succeeds
having run only the status query (no `git add`, no `git commit`, nothing
mutating); on a dirty worktree with succeeding commands, it stages all
files and commits with `--no-verify` and the given title. -/
theorem commit_changes_spec (wt : GitWorktree) (env : CmdEnv) (title s : String)
    (hout : env.output "git" ["-C", wt.worktree_dir, "status", "--porcelain"] = some s) :
    (rustTrim s = "" →
      (GitWorktree.commit_changes wt title env).1 = .ok () ∧
        (GitWorktree.commit_changes wt title env).2 =
          [("git", ["-C", wt.worktree_dir, "status", "--porcelain"])]) ∧
      (rustTrim s ≠ "" →
        env.run "git" ["-C", wt.worktree_dir, "add", "."] = true →
        env.run "git" ["-C", wt.worktree_dir, "commit", "--no-verify", "-m", title] = true →
        (GitWorktree.commit_changes wt title env).1 = .ok () ∧
          (GitWorktree.commit_changes wt title env).2 =
            [("git", ["-C", wt.worktree_dir, "status", "--porcelain"]),
              ("git", ["-C", wt.worktree_dir, "add", "."]),
              ("git", ["-C", wt.worktree_dir, "commit", "--no-verify", "-m", title])]) := by
  constructor
  · intro hclean
    simp [GitWorktree.commit_changes, GitWorktree.is_dirty, runGitCommand, hout, hclean]
  · intro hdirty hadd hcommit
    have hne : (rustTrim s == "") = false := by
      simp [hdirty]
    simp [GitWorktree.commit_changes, GitWorktree.is_dirty, runGitCommand, hout, hne,
      hadd, hcommit]

/-- C8 witness: a clean worktree commits nothing and succeeds. -/
theorem commit_changes_witness :
    (GitWorktree.commit_changes ⟨"/repo", "/wt", "s", "league/t", "abc"⟩ "msg"
        ⟨fun _ _ => true, fun _ _ => some ""⟩).1 = .ok () ∧
      (GitWorktree.commit_changes ⟨"/repo", "/wt", "s", "league/t", "abc"⟩ "msg"
        ⟨fun _ _ => true, fun _ _ => some ""⟩).2 =
        [("git", ["-C", "/wt", "status", "--porcelain"])] :=
  (commit_changes_spec ⟨"/repo", "/wt", "s", "league/t", "abc"⟩
    ⟨fun _ _ => true, fun _ _ => some ""⟩ "msg" "" rfl).1 rfl

/-! ## Text-input overlay (src/ui/overlay/text_input.rs) -/

/-- The key codes the overlay reacts to. -/
inductive KeyCode where
  | enter
  | esc
  | char (c : Char)
  | backspace
  | left
  | right
  | other
deriving DecidableEq, Repr

/-- `TextInputOverlay` (src/ui/overlay/text_input.rs); the input string is
modelled as its character list. -/
structure TextInputOverlay where
  title : String
  input : List Char
  cursor_pos : Nat
  submitted : Bool
  cancelled : Bool
deriving DecidableEq, Repr

/-- `TextInputOverlay::handle_key`, returning the new overlay and whether
the key was consumed.  Characters are accepted while the input holds fewer
than 64 characters. -/
def TextInputOverlay.handle_key (o : TextInputOverlay) (k : KeyCode) :
    TextInputOverlay × Bool :=
  match k with
  | .enter => ({ o with submitted := true }, true)
  | .esc => ({ o with cancelled := true }, true)
  | .char c =>
    (if o.input.length < 64 then
      { o with input := o.input.insertIdx o.cursor_pos c, cursor_pos := o.cursor_pos + 1 }
    else o, true)
  | .backspace =>
    (if 0 < o.cursor_pos then
      { o with cursor_pos := o.cursor_pos - 1, input := o.input.eraseIdx (o.cursor_pos - 1) }
    else o, true)
  | .left => (if 0 < o.cursor_pos then { o with cursor_pos := o.cursor_pos - 1 } else o, true)
  | .right =>
    (if o.cursor_pos < o.input.length then { o with cursor_pos := o.cursor_pos + 1 } else o, true)
  | .other => (o, false)

/-- C9: contrary to the claimed 32-character cap for session titles, the
overlay accepts a 33rd printable character into a 32-character input — its
only cap is 64, where insertion is finally rejected.  This contradicts the
repository's own test `test_text_input_32_char_limit` (src/app/mod.rs) and
the `(n/32)` counter the overlay renders. -/
theorem text_input_accepts_33rd_char :
    ((TextInputOverlay.handle_key
        ⟨"New Session", List.replicate 32 'a', 32, false, false⟩
        (.char 'b')).1.input.length = 33) ∧
      ((TextInputOverlay.handle_key
        ⟨"New Session", List.replicate 64 'a', 64, false, false⟩
        (.char 'b')).1.input.length = 64) := by
  constructor
  · simp [TextInputOverlay.handle_key]
  · simp [TextInputOverlay.handle_key]

/-! ## Instance lifecycle (src/session/instance.rs, src/app/mod.rs)

Each public operation is embedded as a transition on `Instance`, with the
success of every fallible external command given by an oracle Boolean in
the event; a `?` early return in the Rust becomes stopping the transition
at the mutations already performed. -/

/-- `GitWorktree::new` result (src/session/git/worktree.rs): `bp` is the
configured branch prefix string, `cd` the config directory, `nanos` the
clock reading used for the unique directory name. -/
def mkWorktree (bp cd title sessionId repoPath baseCommit : String) (nanos : Nat) :
    GitWorktree :=
  { repo_path := repoPath,
    worktree_dir := cd ++ "/worktrees/" ++ sessionId ++ "_" ++ toString nanos,
    session_id := sessionId,
    branch := bp ++ sanitize_branch_name title,
    base_commit := baseCommit }

/-- A tmux session right after a successful `start`/`restore`: monitoring
PTY open, attached. -/
def startedTmux (name program : String) : TmuxSessionM :=
  { TmuxSession.newM name program with ptmx := true, attached := true }

/-- Lifecycle events: the public `Instance` operations with the outcomes of
their external commands, and the per-instance effects of the controller's
background messages. -/
inductive Ev where
  | startFirst (wtOk : Bool) (repoPath baseCommit : String) (nanos : Nat)
      (setupOk tmuxOk : Bool) (now : Nat)
  | startRestore (restoreOk : Bool) (now : Nat)
  | killEv (closeOk cleanupOk : Bool) (now : Nat)
  | pauseEv (commitOk removeOk closeOk : Bool) (now : Nat)
  | resumeEv (setupOk tmuxOk : Bool) (now : Nat)
  | msgSessionDied
  | msgInstanceReady (wtTitle repoPath baseCommit : String) (nanos : Nat) (restoreOk : Bool)
  | msgDiffComputed (stats : DiffStats)

/-- Second half of `Instance::kill` after the tmux close: clear the
worktree handle (its cleanup may fail first, aborting), then
`status = Ready`, `started = false`. -/
def killCleanupStep (i : Instance) (cleanupOk : Bool) (now : Nat) : Instance :=
  match i.git_worktree with
  | some _ =>
    if cleanupOk then
      { i with git_worktree := none, status := .Ready, started := false, updated_at := now }
    else i
  | none =>
    { i with git_worktree := none, status := .Ready, started := false, updated_at := now }

/-- Second half of `Instance::pause`: close the tmux session (dropping its
PTY before the kill, which may fail), then `status = Paused`. -/
def pauseCloseStep (i : Instance) (closeOk : Bool) (now : Nat) : Instance :=
  match i.tmux_session with
  | some t =>
    if closeOk then { i with tmux_session := none, status := .Paused, updated_at := now }
    else { i with tmux_session := some { t with ptmx := false } }
  | none => { i with tmux_session := none, status := .Paused, updated_at := now }

/-- The transition of one lifecycle event, translated from
`Instance::start/kill/pause/resume` and the per-instance effects of
`App::process_background_updates`. -/
def applyEv (bp cd : String) (i : Instance) : Ev → Instance
  | .startFirst wtOk repoPath baseCommit nanos setupOk tmuxOk now =>
    if wtOk then
      let wt := mkWorktree bp cd i.title i.title repoPath baseCommit nanos
      if setupOk then
        let i1 := { i with branch := wt.branch }
        if tmuxOk then
          { i1 with tmux_session := some (startedTmux i.title i.program),
                    git_worktree := some wt, status := .Running, started := true,
                    updated_at := now }
        else i1
      else i
    else i
  | .startRestore ok now =>
    if ok then
      { i with tmux_session := some (startedTmux i.title i.program),
               status := .Running, updated_at := now }
    else i
  | .killEv closeOk cleanupOk now =>
    match i.tmux_session with
    | some t =>
      if closeOk then killCleanupStep { i with tmux_session := none } cleanupOk now
      else { i with tmux_session := some { t with ptmx := false } }
    | none => killCleanupStep { i with tmux_session := none } cleanupOk now
  | .pauseEv commitOk removeOk closeOk now =>
    match i.git_worktree with
    | some _ =>
      if commitOk then
        if removeOk then pauseCloseStep i closeOk now else i
      else i
    | none => pauseCloseStep i closeOk now
  | .resumeEv setupOk tmuxOk now =>
    match i.git_worktree with
    | some _ =>
      if setupOk then
        if tmuxOk then
          { i with tmux_session := some (startedTmux i.title i.program),
                   status := .Running, updated_at := now }
        else i
      else i
    | none => { i with status := .Running, updated_at := now }
  | .msgSessionDied =>
    if i.status = .Running then
      { i with status := .Ready, tmux_session := none, started := false }
    else i
  | .msgInstanceReady wtTitle repoPath baseCommit nanos restoreOk =>
    let wt := mkWorktree bp cd wtTitle wtTitle repoPath baseCommit nanos
    let i1 := { i with branch := wt.branch, git_worktree := some wt }
    if restoreOk then
      { i1 with tmux_session := some (startedTmux i1.title i1.program), status := .Running }
    else { i1 with status := .Ready }
  | .msgDiffComputed stats => { i with diff_stats := some stats }

/-- A sequence of lifecycle events applied in order. -/
def runEvents (bp cd : String) (i : Instance) : List Ev → Instance
  | [] => i
  | e :: es => runEvents bp cd (applyEv bp cd i e) es

/-- Side condition for the invariant below: an `InstanceReady` whose
session restore fails sets `status = Ready` without clearing a possibly
present multiplexer handle, so such stale events are excluded. -/
def Ev.readyRestoreOk : Ev → Prop
  | .msgInstanceReady _ _ _ _ ok => ok = true
  | _ => True

/-- The surviving direction of the claimed invariants: a present
multiplexer handle implies `status = Running`, and a present worktree
handle implies a non-empty `branch`. -/
def InstInv (i : Instance) : Prop :=
  (i.tmux_session.isSome = true → i.status = .Running) ∧
    (i.git_worktree.isSome = true → i.branch ≠ "")

theorem strAppend_ne_empty (p s : String) (hp : p ≠ "") : p ++ s ≠ "" := by
  intro h
  apply hp
  have hd : (p ++ s).data = p.data ++ s.data := String.data_append p s
  rw [h] at hd
  have hp2 : p.data = [] := (List.append_eq_nil.mp hd.symm).1
  cases p
  simp only at hp2
  simp [hp2]

theorem applyEv_preserves (bp cd : String) (hbp : bp ≠ "") (i : Instance) (e : Ev)
    (he : Ev.readyRestoreOk e) (h : InstInv i) : InstInv (applyEv bp cd i e) := by
  obtain ⟨h1, h2⟩ := h
  have hbr : ∀ t : String, bp ++ sanitize_branch_name t ≠ "" :=
    fun t => strAppend_ne_empty _ _ hbp
  cases e with
  | startFirst wtOk repoPath baseCommit nanos setupOk tmuxOk now =>
    cases wtOk <;> cases setupOk <;> cases tmuxOk <;>
      simp_all [applyEv, InstInv, mkWorktree]
  | startRestore ok now =>
    cases ok <;> simp_all [applyEv, InstInv]
  | killEv closeOk cleanupOk now =>
    unfold applyEv
    cases htm : i.tmux_session with
    | none =>
      unfold killCleanupStep
      cases hwt : i.git_worktree <;> cases cleanupOk <;> simp_all [InstInv]
    | some t =>
      cases closeOk with
      | false => simp_all [InstInv]
      | true =>
        unfold killCleanupStep
        cases hwt : i.git_worktree <;> cases cleanupOk <;> simp_all [InstInv]
  | pauseEv commitOk removeOk closeOk now =>
    unfold applyEv
    cases hwt : i.git_worktree with
    | none =>
      unfold pauseCloseStep
      cases htm : i.tmux_session <;> cases closeOk <;> simp_all [InstInv]
    | some w =>
      cases commitOk <;> cases removeOk <;> simp_all [InstInv]
      unfold pauseCloseStep
      cases htm : i.tmux_session <;> cases closeOk <;> simp_all [InstInv]
  | resumeEv setupOk tmuxOk now =>
    unfold applyEv
    cases hwt : i.git_worktree <;> cases setupOk <;> cases tmuxOk <;> simp_all [InstInv]
  | msgSessionDied =>
    by_cases hs : i.status = .Running <;> simp_all [applyEv, InstInv]
  | msgInstanceReady wtTitle repoPath baseCommit nanos restoreOk =>
    unfold Ev.readyRestoreOk at he
    subst he
    simp_all [applyEv, InstInv, mkWorktree]
    try exact fun _ => hbr wtTitle
  | msgDiffComputed stats =>
    simp_all [applyEv, InstInv]

theorem runEvents_preserves (bp cd : String) (hbp : bp ≠ "") (evs : List Ev)
    (i : Instance) (hok : ∀ e ∈ evs, Ev.readyRestoreOk e) (h : InstInv i) :
    InstInv (runEvents bp cd i evs) := by
  induction evs generalizing i with
  | nil => exact h
  | cons e es ih =>
    exact ih _ (fun x hx => hok x (List.mem_cons_of_mem e hx))
      (applyEv_preserves bp cd hbp i e (hok e (List.mem_cons_self e es)) h)

/-- C1 counterexample: the sequence `new; start(first); kill; resume`
(all external commands succeeding, prefix `league/`) ends with a non-empty
`branch` but no worktree handle (kill keeps `branch`), and with
`status = Running` but no multiplexer handle (resume without a worktree
still sets `Running`) — both claimed biconditionals fail. -/
theorem instance_invariant_counterexample :
    ¬ (((runEvents "league/" "/cfg" (Instance.new ⟨"feature", "/tmp", "claude", false⟩ 0)
          [.startFirst true "/repo" "abc" 1 true true 2, .killEv true true 3,
            .resumeEv true true 4]).branch ≠ "") ↔
        (runEvents "league/" "/cfg" (Instance.new ⟨"feature", "/tmp", "claude", false⟩ 0)
          [.startFirst true "/repo" "abc" 1 true true 2, .killEv true true 3,
            .resumeEv true true 4]).git_worktree.isSome = true) ∧
      ¬ (((runEvents "league/" "/cfg" (Instance.new ⟨"feature", "/tmp", "claude", false⟩ 0)
          [.startFirst true "/repo" "abc" 1 true true 2, .killEv true true 3,
            .resumeEv true true 4]).status = .Running) ↔
        (runEvents "league/" "/cfg" (Instance.new ⟨"feature", "/tmp", "claude", false⟩ 0)
          [.startFirst true "/repo" "abc" 1 true true 2, .killEv true true 3,
            .resumeEv true true 4]).tmux_session.isSome = true) := by
  decide

/-- C1 (amended): starting from `Instance::new`, after any sequence of the
public operations (`start`, `kill`, `pause`, `resume`, with every external
command free to succeed or fail) and of the per-instance background
transitions (`SessionDied`, `DiffComputed`, and `InstanceReady` whose
session restore succeeds), and given a non-empty configured branch prefix:
a present multiplexer handle implies `status = Running`, and a present
worktree handle implies a non-empty `branch`.  The two converses of the
original claim are refuted by the counterexample. -/
theorem instance_invariant (bp cd : String) (opts : InstanceOptions) (now : Nat)
    (evs : List Ev) (hbp : bp ≠ "") (hok : ∀ e ∈ evs, Ev.readyRestoreOk e) :
    InstInv (runEvents bp cd (Instance.new opts now) evs) := by
  apply runEvents_preserves bp cd hbp evs _ hok
  constructor
  · intro hsome
    simp [Instance.new] at hsome
  · intro hsome
    simp [Instance.new] at hsome

/-- C1 witness: the invariant after a concrete successful first start. -/
theorem instance_invariant_witness :
    InstInv (runEvents "league/" "/cfg" (Instance.new ⟨"t", "/p", "claude", false⟩ 0)
      [.startFirst true "/repo" "abc" 1 true true 2]) :=
  instance_invariant "league/" "/cfg" ⟨"t", "/p", "claude", false⟩ 0
    [.startFirst true "/repo" "abc" 1 true true 2]
    (by decide)
    (by
      intro e he
      rcases List.mem_singleton.mp he with rfl
      trivial)

/-! ## Controller background updates (src/app/mod.rs) -/

/-- The controller state consumed by `process_background_updates`:
the instance vector, the list selection, the preview pane content, the
diff-view content, the error strip, and the pending-prompts map. -/
structure AppSt where
  instances : List Instance
  selected : Nat
  preview : String
  diffView : Option DiffStats
  errorMsg : Option String
  pendingPrompts : List (Nat × String)
deriving DecidableEq, Repr

/-- `BackgroundUpdate` (src/app/mod.rs). -/
inductive BgUpdate where
  | PreviewContent (idx : Nat) (content : String)
  | DiffComputed (idx : Nat) (stats : DiffStats)
  | InstanceReady (idx : Nat) (wt : GitWorktree)
  | InstanceFailed (idx : Nat) (msg : String)
  | SessionDied (idx : Nat)
deriving DecidableEq, Repr

/-- The instance index carried by a background update. -/
def BgUpdate.index : BgUpdate → Nat
  | .PreviewContent i _ => i
  | .DiffComputed i _ => i
  | .InstanceReady i _ => i
  | .InstanceFailed i _ => i
  | .SessionDied i => i

/-- `App::refresh_list` as far as state is concerned: `ListPane::set_items`
clamps the selection into range when the list is non-empty (and leaves a
stale selection alone when it is empty). -/
def refreshList (st : AppSt) : AppSt :=
  if st.instances ≠ [] ∧ st.instances.length ≤ st.selected then
    { st with selected := st.instances.length - 1 }
  else st

/-- `HashMap::remove` on the pending-prompts map: drop the key. -/
def removeKey (ps : List (Nat × String)) (k : Nat) : List (Nat × String) :=
  ps.filter fun p => p.1 != k

/-- `HashMap::remove`, the returned value: the prompt stored at the key. -/
def lookupKey (ps : List (Nat × String)) (k : Nat) : Option String :=
  (ps.find? fun p => p.1 == k).map (·.2)

/-- Prompt flush of the `InstanceReady` handler: send the removed pending
prompt when it is non-empty. -/
def flushPrompt (inst : Instance) (prompt : Option String) : List CmdCall :=
  match prompt with
  | some p => if p ≠ "" then Instance.sendPromptM inst p else []
  | none => []

/-- One message of `App::process_background_updates`, translated branch by
branch; the second component collects the tmux commands issued. -/
def processUpdate (env : TmuxEnv) (st : AppSt) : BgUpdate → AppSt × List CmdCall
  | .PreviewContent idx content =>
    (if idx = st.selected then { st with preview := content } else st, [])
  | .DiffComputed idx stats =>
    let st1 := if idx = st.selected then { st with diffView := some stats } else st
    if h : idx < st1.instances.length then
      let inst := st1.instances.get ⟨idx, h⟩
      (refreshList { st1 with
        instances := st1.instances.set idx { inst with diff_stats := some stats } }, [])
    else (st1, [])
  | .InstanceReady idx wt =>
    if h : idx < st.instances.length then
      let inst := st.instances.get ⟨idx, h⟩
      let inst1 := { inst with branch := wt.branch, git_worktree := some wt }
      match Instance.restoreSessionM inst1 env with
      | .ok inst2 =>
        (refreshList { st with
            instances := st.instances.set idx inst2,
            pendingPrompts := removeKey st.pendingPrompts idx },
          flushPrompt inst2 (lookupKey st.pendingPrompts idx))
      | .error _ =>
        let inst2 := { inst1 with status := .Ready }
        (refreshList { st with
            instances := st.instances.set idx inst2,
            errorMsg := some "Failed to attach to session",
            pendingPrompts := removeKey st.pendingPrompts idx },
          flushPrompt inst2 (lookupKey st.pendingPrompts idx))
    else (st, [])
  | .InstanceFailed idx msg =>
    let st1 :=
      if idx < st.instances.length then
        refreshList { st with
          instances := st.instances.eraseIdx idx,
          pendingPrompts := removeKey st.pendingPrompts idx }
      else st
    ({ st1 with errorMsg := some ("Session creation failed: " ++ msg) }, [])
  | .SessionDied idx =>
    if h : idx < st.instances.length then
      let inst := st.instances.get ⟨idx, h⟩
      if inst.status = .Running then
        let inst2 : Instance :=
          { inst with status := .Ready, tmux_session := none, started := false }
        (refreshList { st with instances := st.instances.set idx inst2 }, [])
      else (st, [])
    else (st, [])

/-- C6 counterexample: with an empty instance list (so every index is
stale) and the selection resting at 0, a stale `PreviewContent` with
index 0 still updates the preview view — the state changes. -/
theorem stale_message_counterexample :
    (⟨[], 0, "", none, none, []⟩ : AppSt).instances.length ≤ 0 ∧
      (processUpdate ⟨fun _ => false, fun _ _ => none, false⟩
          ⟨[], 0, "", none, none, []⟩ (.PreviewContent 0 "x")).1 ≠
        (⟨[], 0, "", none, none, []⟩ : AppSt) := by
  decide

/-- C6 (amended): a background message whose index is at least the current
instance-list length leaves the instance list (and with it every cached
diff stat), the selection, and the pending prompts unchanged and issues no
command; when the selection is in range (always the case on a non-empty
list) the preview and diff views are also unchanged; `InstanceFailed` is
the exception for the error strip, which it always sets. -/
theorem stale_message_effects (env : TmuxEnv) (st : AppSt) (u : BgUpdate)
    (hidx : st.instances.length ≤ u.index) :
    (processUpdate env st u).1.instances = st.instances ∧
      (processUpdate env st u).1.selected = st.selected ∧
      (processUpdate env st u).1.pendingPrompts = st.pendingPrompts ∧
      (processUpdate env st u).2 = [] ∧
      (st.selected < st.instances.length →
        (processUpdate env st u).1.preview = st.preview ∧
          (processUpdate env st u).1.diffView = st.diffView) ∧
      (match u with
        | .InstanceFailed _ msg =>
          (processUpdate env st u).1.errorMsg = some ("Session creation failed: " ++ msg)
        | _ => (processUpdate env st u).1.errorMsg = st.errorMsg) := by
  cases u with
  | PreviewContent idx content =>
    simp only [BgUpdate.index] at hidx
    by_cases hsel : idx = st.selected
    · subst hsel
      refine ⟨?_, ?_, ?_, ?_, fun hlt => absurd hlt (by omega), ?_⟩ <;>
        simp [processUpdate]
    · simp [processUpdate, hsel]
  | DiffComputed idx stats =>
    simp only [BgUpdate.index] at hidx
    have hnlt : ¬ idx < st.instances.length := by omega
    by_cases hsel : idx = st.selected
    · subst hsel
      refine ⟨?_, ?_, ?_, ?_, fun hlt => absurd hlt (by omega), ?_⟩ <;>
        simp [processUpdate, hnlt]
    · simp [processUpdate, hsel, hnlt]
  | InstanceReady idx wt =>
    simp only [BgUpdate.index] at hidx
    have hnlt : ¬ idx < st.instances.length := by omega
    simp [processUpdate, hnlt]
  | InstanceFailed idx msg =>
    simp only [BgUpdate.index] at hidx
    have hnlt : ¬ idx < st.instances.length := by omega
    simp [processUpdate, hnlt]
  | SessionDied idx =>
    simp only [BgUpdate.index] at hidx
    have hnlt : ¬ idx < st.instances.length := by omega
    simp [processUpdate, hnlt]

/-- C6 witness: a stale `DiffComputed` at index 5 over a two-element list
with selection 1 changes nothing and issues nothing. -/
theorem stale_message_effects_witness :
    (processUpdate ⟨fun _ => false, fun _ _ => none, false⟩
        ⟨[Instance.new ⟨"a", "/p", "claude", false⟩ 0,
          Instance.new ⟨"b", "/p", "claude", false⟩ 0], 1, "pv", none, none, []⟩
        (.DiffComputed 5 ⟨"", 0, 0, none⟩)).1.instances =
      [Instance.new ⟨"a", "/p", "claude", false⟩ 0,
        Instance.new ⟨"b", "/p", "claude", false⟩ 0] ∧
    (processUpdate ⟨fun _ => false, fun _ _ => none, false⟩
        ⟨[Instance.new ⟨"a", "/p", "claude", false⟩ 0,
          Instance.new ⟨"b", "/p", "claude", false⟩ 0], 1, "pv", none, none, []⟩
        (.DiffComputed 5 ⟨"", 0, 0, none⟩)).1.selected = 1 ∧
    (processUpdate ⟨fun _ => false, fun _ _ => none, false⟩
        ⟨[Instance.new ⟨"a", "/p", "claude", false⟩ 0,
          Instance.new ⟨"b", "/p", "claude", false⟩ 0], 1, "pv", none, none, []⟩
        (.DiffComputed 5 ⟨"", 0, 0, none⟩)).1.preview = "pv" :=
  by
    have h := stale_message_effects ⟨fun _ => false, fun _ _ => none, false⟩
      ⟨[Instance.new ⟨"a", "/p", "claude", false⟩ 0,
        Instance.new ⟨"b", "/p", "claude", false⟩ 0], 1, "pv", none, none, []⟩
      (.DiffComputed 5 ⟨"", 0, 0, none⟩) (by decide)
    exact ⟨h.1, h.2.1, (h.2.2.2.2.1 (by decide)).1⟩

end Gana
